import Mathlib

/-!
Shallow embedding of the twitch_client_rs protocol layer
(src/tags.rs, src/irc.rs, src/twitch_client.rs) and proofs about it.
Strings are modelled as lists of characters; Rust's `str::split(char)`
is modelled by `splitOnChar`, which like the original always returns at
least one (possibly empty) piece.
-/

namespace Twitch

abbrev Str := List Char

/-- Model of Rust `str::split(sep)` for a one-character separator:
the list of (possibly empty) pieces between occurrences of `sep`. -/
def splitOnChar (sep : Char) : Str → List Str
  | [] => [[]]
  | c :: rest =>
    if c = sep then [] :: splitOnChar sep rest
    else
      match splitOnChar sep rest with
      | [] => [[c]]
      | s :: ss => (c :: s) :: ss

theorem splitOnChar_ne_nil (sep : Char) (s : Str) : splitOnChar sep s ≠ [] := by
  induction s with
  | nil => simp [splitOnChar]
  | cons c rest ih =>
    simp only [splitOnChar]
    by_cases h : c = sep
    · simp [h]
    · simp only [h, if_false]
      cases hs : splitOnChar sep rest <;> simp

theorem splitOnChar_not_mem {sep : Char} {s : Str} (h : sep ∉ s) :
    splitOnChar sep s = [s] := by
  induction s with
  | nil => rfl
  | cons c rest ih =>
    simp only [List.mem_cons, not_or] at h
    simp only [splitOnChar]
    rw [if_neg (fun hc => h.1 hc.symm), ih h.2]

theorem splitOnChar_append_cons {sep : Char} {xs : Str} (ys : Str) (h : sep ∉ xs) :
    splitOnChar sep (xs ++ sep :: ys) = xs :: splitOnChar sep ys := by
  induction xs with
  | nil => simp [splitOnChar]
  | cons c rest ih =>
    simp only [List.mem_cons, not_or] at h
    have hne : ¬ c = sep := fun hc => h.1 hc.symm
    simp only [List.cons_append, splitOnChar, if_neg hne, List.append_eq, ih h.2]

theorem splitOnChar_head_takeWhile (sep : Char) (s : Str) :
    (splitOnChar sep s).headD [] = s.takeWhile (fun c => c ≠ sep) := by
  induction s with
  | nil => rfl
  | cons c rest ih =>
    by_cases h : c = sep
    · subst h
      simp [splitOnChar, List.takeWhile_cons]
    · obtain ⟨p, ps, hs⟩ : ∃ p ps, splitOnChar sep rest = p :: ps := by
        cases hs : splitOnChar sep rest with
        | nil => exact absurd hs (splitOnChar_ne_nil sep rest)
        | cons p ps => exact ⟨p, ps, rfl⟩
      rw [hs] at ih
      simp only [List.headD_cons] at ih
      simp [splitOnChar, h, hs, List.takeWhile_cons, ih]

/-- Errors of `error.rs` `MessageParseError` (payloads kept verbatim). -/
inductive MessageParseError where
  | MissingTag (tag : Str)
  | InvalidTag (tag : Str)
  | InvalidBadge (badge : Str)
  | InvalidBadgeVersion (badge : Str)
  | InvalidBoolValue (key : Str) (value : Str)
  | InvalidIntValue (key : Str) (value : Str)
  | MalformedEmote (emote : Str)
  | InvalidUserType (value : Str)
deriving DecidableEq

/-- Tag map as the insertion-ordered entry list; a later duplicate key
shadows an earlier one, as when collecting into Rust's HashMap. -/
abbrev TagMap := List (Str × Str)

/-- Lookup in a `TagMap`: the value of the last entry with the given key,
matching HashMap insert-overwrite semantics. -/
def tagGet (m : TagMap) (k : Str) : Option Str :=
  match m with
  | [] => none
  | (k', v) :: rest =>
    match tagGet rest k with
    | some v' => some v'
    | none => if k' = k then some v else none

/-- Collecting an iterator of fallible pairs, stopping at the first error
(the semantics of Rust's `collect::<Result<_, _>>()`). -/
def mapExcept (f : α → Except ε β) : List α → Except ε (List β)
  | [] => .ok []
  | a :: as =>
    match f a with
    | .error e => .error e
    | .ok b =>
      match mapExcept f as with
      | .error e => .error e
      | .ok bs => .ok (b :: bs)

/-- One `key=value` entry of the tag blob: `kv.split('=')` then the first
two pieces; a missing second piece is `InvalidTag(kv)` (src/tags.rs 112-130). -/
def parseTagEntry (kv : Str) : Except MessageParseError (Str × Str) :=
  match splitOnChar '=' kv with
  | [] => .error (.InvalidTag kv)
  | [_] => .error (.InvalidTag kv)
  | k :: v :: _ => .ok (k, v)

/-- Model of `tags::parse_tags`: split the blob on `;`, parse each entry,
collect into the map (first error aborts). -/
def parse_tags (tags_component : Str) : Except MessageParseError TagMap :=
  mapExcept parseTagEntry (splitOnChar ';' tags_component)

instance [DecidableEq ε] [DecidableEq α] : DecidableEq (Except ε α) := fun a b =>
  match a, b with
  | Except.ok x, Except.ok y =>
      if h : x = y then .isTrue (by rw [h]) else .isFalse (by simp [h])
  | Except.ok _, Except.error _ => .isFalse (by simp)
  | Except.error _, Except.ok _ => .isFalse (by simp)
  | Except.error x, Except.error y =>
      if h : x = y then .isTrue (by rw [h]) else .isFalse (by simp [h])

/-- Value of a base-10 digit string, or `none` on a non-digit. -/
def digitsVal (s : List Char) : Option Nat :=
  s.foldl
    (fun acc c =>
      match acc with
      | none => none
      | some n => if c.isDigit then some (n * 10 + (c.toNat - 48)) else none)
    (some 0)

/-- Model of Rust `str::parse::<u32>()`: an optional leading `+`, at least
one digit, and rejection of values that overflow 32 bits. -/
def parseU32 (s : Str) : Option Nat :=
  let ds :=
    match s with
    | '+' :: rest => rest
    | _ => s
  if ds.isEmpty then none
  else
    match digitsVal ds with
    | none => none
    | some n => if n < 4294967296 then some n else none

def strAdmin : Str := ("admin").toList
def strBits : Str := ("bits").toList
def strBroadcaster : Str := ("broadcaster").toList
def strModerator : Str := ("moderator").toList
def strSubscriber : Str := ("subscriber").toList
def strStaff : Str := ("staff").toList
def strTurbo : Str := ("turbo").toList
def strGlobalMod : Str := ("global_mod").toList
def strBadges : Str := ("badges").toList
def strUserTypeKey : Str := ("user-type").toList
def strDisplayName : Str := ("display-name").toList
def strUserId : Str := ("user-id").toList
def strMod : Str := ("mod").toList
def strFirstMsg : Str := ("first-msg").toList
def strReturningChatter : Str := ("returning-chatter").toList
def strPING : Str := ['P', 'I', 'N', 'G']
def strPRIVMSG : Str := ['P', 'R', 'I', 'V', 'M', 'S', 'G']
def strNOTICE : Str := ['N', 'O', 'T', 'I', 'C', 'E']
def strPART : Str := ['P', 'A', 'R', 'T']

/-- The `UserType` enumeration of src/tags.rs. -/
inductive UserType where
  | User
  | Admin
  | GlobalMod
  | Staff
deriving DecidableEq

/-- Model of `impl TryFrom<&str> for UserType`. -/
def UserType.tryFrom (value : Str) : Except MessageParseError UserType :=
  if value = [] then .ok .User
  else if value = strAdmin then .ok .Admin
  else if value = strGlobalMod then .ok .GlobalMod
  else if value = strStaff then .ok .Staff
  else .error (.InvalidUserType value)

/-- The `Badge` enumeration of src/tags.rs: the badge name is mapped to the
constructor and then discarded; only the version integer is kept. -/
inductive Badge where
  | Admin (version : Nat)
  | Bits (version : Nat)
  | Broadcaster (version : Nat)
  | Moderator (version : Nat)
  | Subscriber (version : Nat)
  | Staff (version : Nat)
  | Turbo (version : Nat)
  | Other (version : Nat)
deriving DecidableEq

/-- Model of `impl TryFrom<&str> for Badge`: split on `/`, the first piece is
the name, the second must parse as `u32`; unknown names become `Other`. -/
def Badge.tryFrom (value : Str) : Except MessageParseError Badge :=
  match splitOnChar '/' value with
  | [] => .error (.InvalidBadge value)
  | [_] => .error (.InvalidBadge value)
  | name :: ver :: _ =>
    match parseU32 ver with
    | none => .error (.InvalidBadgeVersion value)
    | some version =>
      .ok
        (if name = strAdmin then .Admin version
        else if name = strBits then .Bits version
        else if name = strBroadcaster then .Broadcaster version
        else if name = strModerator then .Moderator version
        else if name = strSubscriber then .Subscriber version
        else if name = strStaff then .Staff version
        else if name = strTurbo then .Turbo version
        else .Other version)

def Badge.isBroadcasterBadge : Badge → Bool
  | .Broadcaster _ => true
  | _ => false

/-- Model of `Tags::try_get_bool`: the value must be literally `1` or `0`. -/
def try_get_bool (m : TagMap) (key : Str) : Except MessageParseError Bool :=
  match tagGet m key with
  | none => .error (.MissingTag key)
  | some v =>
    if v = ['1'] then .ok true
    else if v = ['0'] then .ok false
    else .error (.InvalidBoolValue key v)

/-- Model of `Tags::try_get_badges`: requires the `badges` key; comma-split,
blank entries filtered, each remaining entry parsed as a badge. -/
def try_get_badges (m : TagMap) : Except MessageParseError (List Badge) :=
  match tagGet m strBadges with
  | none => .error (.MissingTag strBadges)
  | some v => mapExcept Badge.tryFrom ((splitOnChar ',' v).filter (fun e => !e.isEmpty))

/-- Model of `Tags::try_get_user_type`: requires the `user-type` key; an
invalid value is reported as `InvalidTag(value)`. -/
def try_get_user_type (m : TagMap) : Except MessageParseError UserType :=
  match tagGet m strUserTypeKey with
  | none => .error (.MissingTag strUserTypeKey)
  | some v =>
    match UserType.tryFrom v with
    | .ok ut => .ok ut
    | .error _ => .error (.InvalidTag v)

/-- Model of `tags.get(key).ok_or(MissingTag(key))`. -/
def try_get_required (m : TagMap) (key : Str) : Except MessageParseError Str :=
  match tagGet m key with
  | some v => .ok v
  | none => .error (.MissingTag key)

/-- The `Source` struct of src/irc.rs. -/
structure Source where
  nick : Option Str
  host : Str
deriving DecidableEq

/-- Model of `irc::parse_source`: when the blob contains `!`, the nick is the
piece before the first `!` and the host is the next `/`-free piece of the
`!`-split (the second piece only, as in the source's two `parts.next()`). -/
def parse_source (source_component : Str) : Source :=
  if '!' ∈ source_component then
    match splitOnChar '!' source_component with
    | nick :: host :: _ => ⟨some nick, host⟩
    | _ => ⟨none, source_component⟩
  else ⟨none, source_component⟩

/-- The `UserContext` struct of src/irc.rs, fields in declaration order. -/
structure UserContext where
  username : Str
  user_type : UserType
  is_mod : Bool
  is_returning_chatter : Bool
  is_first_message : Bool
  is_broadcaster : Bool
  is_subscriber : Bool
  is_turbo : Bool
  user_id : Str
  badges : List Badge
deriving DecidableEq

/-- The `IRCMessage` enumeration of src/irc.rs. -/
inductive IRCMessage where
  | Ping (message : Str)
  | Notice (source : Source) (message : Str)
  | Part (source : Source) (message : Str)
  | Privmsg (tags : TagMap) (user_context : UserContext) (source : Source) (message : Str)
  | Numbered (number : Nat) (source : Source) (message : Str)
  | Unknown (command : Str)
deriving DecidableEq

/-- ASCII whitespace, as matched by the regex class `\s` on the ASCII inputs
this protocol layer handles. -/
def isWs (c : Char) : Bool :=
  c == ' ' || c == '\t' || c == '\n' || c == '\r' || c == '\x0b' || c == '\x0c'

/-- The four capture groups of the `MESSAGE_PATTERN` regex of src/irc.rs. -/
structure Caps where
  tags : Option Str
  source : Option Str
  command : Str
  parameters : Option Str
deriving DecidableEq

/-- After the command token, the remainder must be empty (no parameters) or
`\s\:(.*)$` with `.` never matching a newline (parameters captured). -/
def restOk : Str → Option (Option Str)
  | [] => some none
  | c :: rest =>
    if isWs c then
      match rest with
      | ':' :: ps => if ps.all (fun x => x != '\n') then some (some ps) else none
      | _ => none
    else none

/-- One candidate match of `(?<command>[^:]+[^:\s])(?:\s\:(?<parameters>.*))?$`
where the command token ends at index `m`: the first `m` characters are the
`[^:]+` part, character `m` is the `[^:\s]` part. -/
def cmdAt (s : Str) (m : Nat) : Option (Str × Option Str) :=
  match s.drop m with
  | [] => none
  | c :: rest =>
    if (s.take m).all (fun x => x != ':') && (c != ':') && !(isWs c) then
      match restOk rest with
      | none => none
      | some ps => some (s.take (m + 1), ps)
    else none

/-- Backtracking over the greedy `[^:]+`: candidate end positions are tried
from the longest down, matching the regex engine's leftmost-first semantics. -/
def tryCmd (s : Str) : Nat → Option (Str × Option Str)
  | 0 => none
  | m + 1 =>
    match cmdAt s (m + 1) with
    | some r => some r
    | none => tryCmd s m

def matchCmdParams (s : Str) : Option (Str × Option Str) :=
  tryCmd s s.length

/-- The optional `@(?<tags>\S+)\s` group: `\S+` is the maximal nonempty run
of non-whitespace after `@`, which must be followed by one whitespace. -/
def tryAtTags (l : Str) : Option (Str × Str) :=
  match l with
  | '@' :: t =>
    let r := t.takeWhile (fun c => !(isWs c))
    match t.drop r.length with
    | c :: rest => if !r.isEmpty && isWs c then some (r, rest) else none
    | [] => none
  | _ => none

/-- The optional `\:(?<source>\S+)\s` group. -/
def tryColonSrc (l : Str) : Option (Str × Str) :=
  match l with
  | ':' :: t =>
    let r := t.takeWhile (fun c => !(isWs c))
    match t.drop r.length with
    | c :: rest => if !r.isEmpty && isWs c then some (r, rest) else none
    | [] => none
  | _ => none

def matchSrcCmd (l : Str) : Option (Option Str × Str × Option Str) :=
  (match tryColonSrc l with
    | some (src, rest) => (matchCmdParams rest).map (fun cp => (some src, cp.1, cp.2))
    | none => none) <|>
  (matchCmdParams l).map (fun cp => (none, cp.1, cp.2))

/-- Model of `MESSAGE_PATTERN.captures(line)`: the anchored regex
`(?:@(?<tags>\S+)\s)?(?:\:(?<source>\S+)\s)?(?<command>[^:]+[^:\s])(?:\s\:(?<parameters>.*))?`
with leftmost-first alternative order (each optional group is tried as
present first, and dropped when the rest of the pattern cannot match). -/
def matchLine (l : Str) : Option Caps :=
  (match tryAtTags l with
    | some (tb, rest) => (matchSrcCmd rest).map (fun sc => ⟨some tb, sc.1, sc.2.1, sc.2.2⟩)
    | none => none) <|>
  (matchSrcCmd l).map (fun sc => ⟨none, sc.1, sc.2.1, sc.2.2⟩)

/-- Outcome of a call to `parse_message`: the returned `Result`, or a panic
(`unwrap` on `None`), which aborts the process instead of returning. -/
inductive ParseOutcome where
  | panics
  | ok (m : IRCMessage)
  | err (e : MessageParseError)
deriving DecidableEq

/-- The tag map derived from the optional tags capture:
`caps.name("tags").map(parse_tags).transpose()?.unwrap_or(HashMap::new())`. -/
def tagsOfCaps : Option Str → Except MessageParseError TagMap
  | none => .ok []
  | some tb => parse_tags tb

/-- The `UserContext` construction of the `PRIVMSG` arm of `parse_message`,
with fields computed in the source's evaluation order (badges first, then the
struct fields in declaration order); the first failure aborts via `?`. -/
def buildUserContext (tags : TagMap) : Except MessageParseError UserContext :=
  match try_get_badges tags with
  | .error e => .error e
  | .ok badges =>
    match try_get_required tags strDisplayName with
    | .error e => .error e
    | .ok username =>
      match try_get_required tags strUserId with
      | .error e => .error e
      | .ok user_id =>
        match try_get_user_type tags with
        | .error e => .error e
        | .ok user_type =>
          match try_get_bool tags strTurbo with
          | .error e => .error e
          | .ok is_turbo =>
            match try_get_bool tags strSubscriber with
            | .error e => .error e
            | .ok is_subscriber =>
              match try_get_bool tags strMod with
              | .error e => .error e
              | .ok is_mod =>
                match try_get_bool tags strFirstMsg with
                | .error e => .error e
                | .ok is_first_message =>
                  match try_get_bool tags strReturningChatter with
                  | .error e => .error e
                  | .ok is_returning_chatter =>
                    .ok ⟨username, user_type, is_mod, is_returning_chatter,
                      is_first_message, badges.any Badge.isBroadcasterBadge,
                      is_subscriber, is_turbo, user_id, badges⟩

/-- Leading word of the command token: `command.split(' ').next().unwrap_or("")`. -/
def headWord (cmd : Str) : Str :=
  (splitOnChar ' ' cmd).headD []

/-- Model of `irc::parse_message`. A regex that fails to match, or a missing
mandatory component consumed through `unwrap()`, is a panic. -/
def parse_message (line : Str) : ParseOutcome :=
  match matchLine line with
  | none => .panics
  | some caps =>
    match tagsOfCaps caps.tags with
    | .error e => .err e
    | .ok tags =>
      let source := caps.source.map parse_source
      if strPING.isPrefixOf caps.command then
        match caps.parameters with
        | none => .panics
        | some p => .ok (.Ping p)
      else if strPRIVMSG.isPrefixOf caps.command then
        match buildUserContext tags with
        | .error e => .err e
        | .ok uc =>
          match caps.parameters with
          | none => .panics
          | some p =>
            match source with
            | none => .panics
            | some src => .ok (.Privmsg tags uc src p)
      else if strNOTICE.isPrefixOf caps.command then
        match caps.parameters with
        | none => .panics
        | some p =>
          match source with
          | none => .panics
          | some src => .ok (.Notice src p)
      else if strPART.isPrefixOf caps.command then
        match caps.parameters with
        | none => .panics
        | some p =>
          match source with
          | none => .panics
          | some src => .ok (.Part src p)
      else
        match parseU32 (headWord caps.command) with
        | some n =>
          match caps.parameters with
          | none => .panics
          | some p =>
            match source with
            | none => .panics
            | some src => .ok (.Numbered n src p)
        | none => .ok (.Unknown caps.command)

/-- Strip one trailing carriage return, as `str::lines` does on a piece that
was terminated by a newline. -/
def stripTrailCr (l : Str) : Str :=
  match l.getLast? with
  | some c => if c = '\r' then l.dropLast else l
  | none => l

/-- Pieces of a newline split: every piece but the last was terminated by a
newline and loses a trailing carriage return; an empty final piece (the text
ended in a newline, or was empty) yields no line. -/
def rustLinesAux : List Str → List Str
  | [] => []
  | [last] => if last.isEmpty then [] else [last]
  | p :: rest => stripTrailCr p :: rustLinesAux rest

/-- Model of Rust `str::lines`. -/
def rustLines (s : Str) : List Str :=
  rustLinesAux (splitOnChar '\n' s)

/-- An inbound websocket frame: only text frames carry protocol lines
(`Message::is_text`); every other frame kind is collapsed into `binaryLike`. -/
inductive WsFrame where
  | text (s : Str)
  | binaryLike
deriving DecidableEq

/-- The `ConnectionError` family; transport failure details are opaque and
modelled by a numeric code. -/
inductive ConnErr where
  | WebsocketNotConnected
  | SendMessageFailure (code : Nat)
  | ReceiveMessageFailure (code : Nat)
deriving DecidableEq

/-- The top-level `Error` union (the credential variant is irrelevant to the
message path and omitted by the claims). -/
inductive Error where
  | ConnectionError (e : ConnErr)
  | MessageParseError (e : MessageParseError)
deriving DecidableEq

/-- The transport collaborator: a script of pending receive results
(head is next; an empty list is end of stream) and a script of send outcomes
(`none` is success, `some code` a send failure). -/
structure Transport where
  incoming : List (Except Nat WsFrame)
  sendScript : List (Option Nat)
deriving DecidableEq

/-- The session state of `TwitchClient` relevant to message flow:
the FIFO of pending decoded messages, the auto-pong flag, and whether
`ws_stream` holds a live handle. -/
structure TwitchClient where
  message_buffer : List (Except MessageParseError IRCMessage)
  auto_pong : Bool
  connected : Bool
deriving DecidableEq

/-- Model of `TwitchClient::send`: fails with `WebsocketNotConnected` before
`connect`, otherwise consumes the next scripted send outcome; the attempted
frame text is recorded when the transport is reached. -/
def wsSend (c : TwitchClient) (t : Transport) (text : Str) :
    Except ConnErr Unit × Transport × List Str :=
  if c.connected then
    match t.sendScript with
    | [] => (.ok (), t, [text])
    | none :: rest => (.ok (), ⟨t.incoming, rest⟩, [text])
    | some e :: rest => (.error (.SendMessageFailure e), ⟨t.incoming, rest⟩, [text])
  else (.error .WebsocketNotConnected, t, [])

/-- The line `PONG :<text>` emitted by `TwitchClient::pong`. -/
def pongLine (m : Str) : Str :=
  ("PONG :").toList ++ m

/-- Model of `TwitchClient::pong`. -/
def pong (c : TwitchClient) (t : Transport) (ping_message : Str) :
    Except Error Unit × Transport × List Str :=
  match wsSend c t (pongLine ping_message) with
  | (.ok u, t', sent) => (.ok u, t', sent)
  | (.error e, t', sent) => (.error (.ConnectionError e), t', sent)

/-- Buffer entries are parse results; mapping them out of the buffer wraps a
parse failure into the top-level error (`map_err(Error::MessageParseError)`). -/
def mapBufErr : Except MessageParseError IRCMessage → Except Error IRCMessage
  | .ok m => .ok m
  | .error e => .error (.MessageParseError e)

/-- The buffer entries produced from the lines of one text frame, in order;
`none` when some line makes `parse_message` panic (killing the process). -/
def pushResults (lines : List Str) : Option (List (Except MessageParseError IRCMessage)) :=
  match lines with
  | [] => some []
  | l :: ls =>
    match parse_message l with
    | .panics => none
    | .ok m =>
      (pushResults ls).map (fun rs => Except.ok m :: rs)
    | .err e =>
      (pushResults ls).map (fun rs => Except.error e :: rs)

/-- Result of one call into the session: a panic, or the `Option<Result<..>>`
the method returns. -/
inductive StepOut where
  | panic
  | out (r : Option (Except Error IRCMessage))
deriving DecidableEq

/-- Model of `TwitchClient::get_next_message`: pop the buffer if non-empty;
otherwise read one frame, enqueue every line of a text frame in order and pop
the front; a non-text frame or end of stream yields no message. -/
def get_next_message (c : TwitchClient) (t : Transport) :
    StepOut × TwitchClient × Transport :=
  match c.message_buffer with
  | m :: rest => (.out (some (mapBufErr m)), ⟨rest, c.auto_pong, c.connected⟩, t)
  | [] =>
    if c.connected then
      match t.incoming with
      | [] => (.out none, c, t)
      | .error e :: rest =>
        (.out (some (.error (.ConnectionError (.ReceiveMessageFailure e)))), c,
          ⟨rest, t.sendScript⟩)
      | .ok (.text s) :: rest =>
        match pushResults (rustLines s) with
        | none => (.panic, c, ⟨rest, t.sendScript⟩)
        | some [] => (.out none, c, ⟨rest, t.sendScript⟩)
        | some (m :: ms) =>
          (.out (some (mapBufErr m)), ⟨ms, c.auto_pong, c.connected⟩, ⟨rest, t.sendScript⟩)
      | .ok .binaryLike :: rest => (.out none, c, ⟨rest, t.sendScript⟩)
    else (.out (some (.error (.ConnectionError .WebsocketNotConnected))), c, t)

theorem pong_incoming_eq (c : TwitchClient) (t : Transport) (m : Str) :
    (pong c t m).2.1.incoming = t.incoming := by
  obtain ⟨inc, ss⟩ := t
  by_cases hc : c.connected
  · cases ss with
    | nil => simp [pong, wsSend, hc]
    | cons o rest => cases o <;> simp [pong, wsSend, hc]
  · simp [pong, wsSend, hc]

theorem get_next_message_ok_decreases {c : TwitchClient} {t : Transport}
    {msg : IRCMessage} {c' : TwitchClient} {t' : Transport}
    (h : get_next_message c t = (.out (some (.ok msg)), c', t')) :
    t'.incoming.length < t.incoming.length ∨
      (t'.incoming = t.incoming ∧
        c'.message_buffer.length < c.message_buffer.length) := by
  obtain ⟨buf, ap, conn⟩ := c
  obtain ⟨inc, ss⟩ := t
  cases buf with
  | cons m rest =>
    simp only [get_next_message, Prod.mk.injEq] at h
    right
    refine ⟨by rw [← h.2.2], ?_⟩
    rw [← h.2.1]
    simp
  | nil =>
    cases conn with
    | false => simp [get_next_message] at h
    | true =>
      cases inc with
      | nil => simp [get_next_message] at h
      | cons f irest =>
        cases f with
        | error e => simp [get_next_message] at h
        | ok fr =>
          cases fr with
          | binaryLike => simp [get_next_message] at h
          | text s =>
            rcases hp : pushResults (rustLines s) with _ | ⟨_ | ⟨m, ms⟩⟩
            · simp [get_next_message, hp] at h
            · simp [get_next_message, hp] at h
            · simp only [get_next_message, hp, if_true, Prod.mk.injEq] at h
              left
              rw [← h.2.2]
              simp

/-- Model of `TwitchClient::next`: the auto-pong interception loop. The last
component accumulates every frame text handed to the transport. -/
def next (c : TwitchClient) (t : Transport) :
    StepOut × TwitchClient × Transport × List Str :=
  match h : get_next_message c t with
  | (.panic, c', t') => (.panic, c', t', [])
  | (.out none, c', t') => (.out none, c', t', [])
  | (.out (some (Except.ok (IRCMessage.Ping p))), c', t') =>
    if c'.auto_pong then
      match hp : pong c' t' p with
      | (.error e, t2, sent) => (.out (some (.error e)), c', t2, sent)
      | (.ok _, t2, sent) =>
        let r := next c' t2
        (r.1, r.2.1, r.2.2.1, sent ++ r.2.2.2)
    else (.out (some (.ok (.Ping p))), c', t', [])
  | (.out (some m), c', t') => (.out (some m), c', t', [])
termination_by (t.incoming.length, c.message_buffer.length)
decreasing_by
  have hd := get_next_message_ok_decreases h
  have hinc : t2.incoming = t'.incoming := by
    have hpi := pong_incoming_eq c' t' p
    rw [hp] at hpi
    exact hpi
  rcases hd with hlt | ⟨heq, hlt⟩
  · exact Prod.Lex.left _ _ (hinc ▸ hlt)
  · rw [hinc, heq]
    exact Prod.Lex.right _ hlt

/-- Key/value view of one tag entry that contains at least one `=`:
the first two pieces of the `=`-split. -/
def entryKV (e : Str) : Str × Str :=
  match splitOnChar '=' e with
  | k :: v :: _ => (k, v)
  | k :: _ => (k, [])
  | [] => ([], [])

/-- Join a list of key/value pairs into a tag blob, `key=value` entries
separated by `;`. -/
def joinTags : List (Str × Str) → Str
  | [] => []
  | [(k, v)] => k ++ '=' :: v
  | (k, v) :: rest => k ++ '=' :: (v ++ ';' :: joinTags rest)

/-- The badge names recognized by `Badge::try_from`. -/
def knownBadgeNames : List Str :=
  [strAdmin, strBits, strBroadcaster, strModerator, strSubscriber, strStaff, strTurbo]

/-- Sample inputs used by the concrete witnesses below. -/
def privmsgSrc : Str := ("abc!abc@abc.tmi.twitch.tv").toList

def privmsgLine1 : Str :=
  ("@user-type=;user-id=1;badges=broadcaster/1;mod=0;returning-chatter=1;first-msg=0;turbo=0;subscriber=0;display-name=abc :abc!abc@abc.tmi.twitch.tv PRIVMSG #xyz :HeyGuys").toList

def privmsgLine2 : Str :=
  ("@user-type=;user-id=1;badges=;mod=1;returning-chatter=0;first-msg=1;turbo=0;subscriber=0;display-name=abc :abc!abc@abc.tmi.twitch.tv PRIVMSG #xyz :GoodBye").toList

def lineMissingDN : Str :=
  ("@user-type=;user-id=1;badges=;mod=0;returning-chatter=0;first-msg=1;turbo=0;subscriber=0 :abc!abc@abc.tmi.twitch.tv PRIVMSG #xyz :HeyGuys").toList

def privmsgTags1 : TagMap :=
  [(("user-type").toList, []),
   (("user-id").toList, ("1").toList),
   (("badges").toList, ("broadcaster/1").toList),
   (("mod").toList, ("0").toList),
   (("returning-chatter").toList, ("1").toList),
   (("first-msg").toList, ("0").toList),
   (("turbo").toList, ("0").toList),
   (("subscriber").toList, ("0").toList),
   (("display-name").toList, ("abc").toList)]

def privmsgTags2 : TagMap :=
  [(("user-type").toList, []),
   (("user-id").toList, ("1").toList),
   (("badges").toList, []),
   (("mod").toList, ("1").toList),
   (("returning-chatter").toList, ("0").toList),
   (("first-msg").toList, ("1").toList),
   (("turbo").toList, ("0").toList),
   (("subscriber").toList, ("0").toList),
   (("display-name").toList, ("abc").toList)]

def tagsMissingDN : TagMap :=
  [(("user-type").toList, []),
   (("user-id").toList, ("1").toList),
   (("badges").toList, []),
   (("mod").toList, ("0").toList),
   (("returning-chatter").toList, ("0").toList),
   (("first-msg").toList, ("1").toList),
   (("turbo").toList, ("0").toList),
   (("subscriber").toList, ("0").toList)]

def privmsgUC1 : UserContext :=
  ⟨("abc").toList, .User, false, true, false, true, false, false, ("1").toList,
    [.Broadcaster 1]⟩

def privmsgUC2 : UserContext :=
  ⟨("abc").toList, .User, true, false, true, false, false, false, ("1").toList, []⟩

def privmsgMsg1 : IRCMessage :=
  .Privmsg privmsgTags1 privmsgUC1 (parse_source privmsgSrc) (("HeyGuys").toList)

def privmsgMsg2 : IRCMessage :=
  .Privmsg privmsgTags2 privmsgUC2 (parse_source privmsgSrc) (("GoodBye").toList)

def twoPrivmsgFrame : Str := privmsgLine1 ++ '\n' :: privmsgLine2

def pingFrame : Str := ("PING :tmi.twitch.tv\nJOIN done").toList

theorem splitOnChar_exists_cons (sep : Char) (s : Str) :
    ∃ p ps, splitOnChar sep s = p :: ps := by
  cases h : splitOnChar sep s with
  | nil => exact absurd h (splitOnChar_ne_nil sep s)
  | cons p ps => exact ⟨p, ps, rfl⟩

theorem splitOnChar_two_of_mem {sep : Char} {s : Str} (h : sep ∈ s) :
    ∃ a b l, splitOnChar sep s = a :: b :: l := by
  induction s with
  | nil => simp at h
  | cons c rest ih =>
    by_cases hc : c = sep
    · subst hc
      obtain ⟨p, ps, hp⟩ := splitOnChar_exists_cons c rest
      exact ⟨[], p, ps, by simp [splitOnChar, hp]⟩
    · have hrest : sep ∈ rest := by
        rcases List.mem_cons.mp h with h1 | h1
        · exact absurd h1.symm hc
        · exact h1
      obtain ⟨a, b, l, hl⟩ := ih hrest
      exact ⟨c :: a, b, l, by simp [splitOnChar, hc, hl]⟩

theorem parseTagEntry_of_not_mem {e : Str} (h : '=' ∉ e) :
    parseTagEntry e = .error (.InvalidTag e) := by
  simp [parseTagEntry, splitOnChar_not_mem h]

theorem parseTagEntry_of_mem {e : Str} (h : '=' ∈ e) :
    parseTagEntry e = .ok (entryKV e) := by
  obtain ⟨a, b, l, hl⟩ := splitOnChar_two_of_mem h
  simp [parseTagEntry, entryKV, hl]

theorem mapExcept_error_at {f : α → Except ε β} {pre : List α} {e : α} {er : ε}
    (post : List α) (hpre : ∀ x ∈ pre, ∃ b, f x = .ok b) (he : f e = .error er) :
    mapExcept f (pre ++ e :: post) = .error er := by
  induction pre with
  | nil => simp [mapExcept, he]
  | cons x xs ih =>
    obtain ⟨b, hb⟩ := hpre x (by simp)
    have hxs := ih (fun y hy => hpre y (by simp [hy]))
    simp [mapExcept, hb, hxs]

theorem mapExcept_map {f : α → Except ε β} {g : α → β} {l : List α}
    (h : ∀ x ∈ l, f x = .ok (g x)) : mapExcept f l = .ok (l.map g) := by
  induction l with
  | nil => simp [mapExcept]
  | cons x xs ih =>
    simp [mapExcept, h x (by simp), ih (fun y hy => h y (by simp [hy]))]

theorem tagGet_mem {m : TagMap} {k v : Str} (h : tagGet m k = some v) : (k, v) ∈ m := by
  induction m with
  | nil => simp [tagGet] at h
  | cons p rest ih =>
    obtain ⟨k', v'⟩ := p
    simp only [tagGet] at h
    cases hr : tagGet rest k with
    | some v'' =>
      rw [hr] at h
      injection h with h
      subst h
      exact List.mem_cons_of_mem _ (ih hr)
    | none =>
      rw [hr] at h
      by_cases hk : k' = k
      · rw [if_pos hk] at h
        injection h with h
        subst h; subst hk
        exact List.mem_cons_self _ _
      · rw [if_neg hk] at h
        exact absurd h (by simp)

theorem tagGet_eq_none_iff {m : TagMap} {k : Str} :
    tagGet m k = none ↔ ∀ p ∈ m, p.1 ≠ k := by
  induction m with
  | nil => simp [tagGet]
  | cons q rest ih =>
    obtain ⟨k', v'⟩ := q
    constructor
    · intro h p hp
      simp only [tagGet] at h
      cases hr : tagGet rest k with
      | some v'' => rw [hr] at h; exact absurd h (by simp)
      | none =>
        rw [hr] at h
        rcases List.mem_cons.mp hp with rfl | hp'
        · intro hk
          rw [if_pos hk] at h
          exact absurd h (by simp)
        · exact ih.mp hr p hp'
    · intro hall
      have h1 : tagGet rest k = none :=
        ih.mpr (fun q hq => hall q (List.mem_cons_of_mem _ hq))
      have h2 : ¬ k' = k := hall (k', v') (List.mem_cons_self _ _)
      simp [tagGet, h1, h2]

theorem tagGet_const {m : TagMap} {k v : Str}
    (hex : ∃ p ∈ m, p.1 = k) (hall : ∀ p ∈ m, p.1 = k → p.2 = v) :
    tagGet m k = some v := by
  induction m with
  | nil => simp at hex
  | cons q rest ih =>
    obtain ⟨k', v'⟩ := q
    cases hr : tagGet rest k with
    | some v'' =>
      have hv : v'' = v := hall (k, v'') (List.mem_cons_of_mem _ (tagGet_mem hr)) rfl
      simp [tagGet, hr, hv]
    | none =>
      rcases hex with ⟨p, hp, hpk⟩
      rcases List.mem_cons.mp hp with rfl | hp'
      · have hk : k' = k := hpk
        have hv : v' = v := hall (k', v') (List.mem_cons_self _ _) hpk
        simp [tagGet, hr, hk, hv]
      · exact absurd hpk (tagGet_eq_none_iff.mp hr p hp')

theorem tagGet_of_nodup {m : TagMap} (hnd : (m.map Prod.fst).Nodup)
    {p : Str × Str} (hp : p ∈ m) : tagGet m p.1 = some p.2 := by
  induction m with
  | nil => simp at hp
  | cons q rest ih =>
    obtain ⟨k', v'⟩ := q
    simp only [List.map_cons, List.nodup_cons] at hnd
    rcases List.mem_cons.mp hp with rfl | hp'
    · have hnone : tagGet rest k' = none :=
        tagGet_eq_none_iff.mpr
          (fun q hq hqk => hnd.1 (hqk ▸ List.mem_map_of_mem Prod.fst hq))
      simp [tagGet, hnone]
    · have hr := ih hnd.2 hp'
      simp [tagGet, hr]

/-- C1: the claim says `parse_message` always returns a recoverable `Result`
and never terminates the process, for any network line. The code disagrees:
the empty line, `":"` (no command token isolable) and a `PING` line with no
trailing component all reach an `unwrap()` and panic; so does a
`NOTICE` line whose mandatory source is absent. A line such as `"@tags"`
does produce a `Result` (`Unknown`). These evaluations document the
divergence at the failing inputs. -/
theorem c1_parse_message_panics :
    parse_message [] = .panics
    ∧ parse_message [':'] = .panics
    ∧ parse_message strPING = .panics
    ∧ parse_message (("NOTICE :hi").toList) = .panics
    ∧ parse_message (("@tags").toList) = .ok (.Unknown (("@tags").toList)) := by
  decide

/-- C2: `parse_tags` splits the blob on `;` and each entry on `=`; the first
entry with no `=` at all fails the whole call with `InvalidTag` carrying that
entry; when every entry contains an `=`, the call succeeds with each entry
contributing its key and (possibly empty) value; in particular an entry
`key=` leaves the key mapped to the empty string (present, not absent). -/
theorem c2_parse_tags_entries (blob : Str) :
    (∀ pre e post, splitOnChar ';' blob = pre ++ e :: post →
        (∀ x ∈ pre, '=' ∈ x) → '=' ∉ e →
        parse_tags blob = .error (.InvalidTag e))
    ∧ ((∀ e ∈ splitOnChar ';' blob, '=' ∈ e) →
        parse_tags blob = .ok ((splitOnChar ';' blob).map entryKV))
    ∧ (∀ k, (∀ e ∈ splitOnChar ';' blob, '=' ∈ e) →
        (k ++ ['=']) ∈ splitOnChar ';' blob → '=' ∉ k →
        (∀ e ∈ splitOnChar ';' blob, (entryKV e).1 = k → e = k ++ ['=']) →
        ∃ m, parse_tags blob = .ok m ∧ tagGet m k = some []) := by
  refine ⟨?_, ?_, ?_⟩
  · intro pre e post hsplit hpre he
    unfold parse_tags
    rw [hsplit]
    exact mapExcept_error_at post
      (fun x hx => ⟨entryKV x, parseTagEntry_of_mem (hpre x hx)⟩)
      (parseTagEntry_of_not_mem he)
  · intro hall
    unfold parse_tags
    exact mapExcept_map (fun x hx => parseTagEntry_of_mem (hall x hx))
  · intro k hall hmem hk hkey
    refine ⟨(splitOnChar ';' blob).map entryKV, ?_, ?_⟩
    · unfold parse_tags
      exact mapExcept_map (fun x hx => parseTagEntry_of_mem (hall x hx))
    · have hent : entryKV (k ++ ['=']) = (k, []) := by
        have hshape : k ++ ['='] = k ++ '=' :: ([] : Str) := by simp
        have h1 : splitOnChar '=' (k ++ ['=']) = k :: splitOnChar '=' [] := by
          rw [hshape]
          exact splitOnChar_append_cons [] hk
        simp [entryKV, h1, splitOnChar]
      refine tagGet_const ⟨(k, []), ?_, rfl⟩ ?_
      · rw [← hent]
        exact List.mem_map_of_mem entryKV hmem
      · intro p hp hpk
        obtain ⟨e, he, rfl⟩ := List.mem_map.mp hp
        rw [hkey e he hpk, hent]

theorem c2_witness :
    parse_tags (("a=1;bare").toList) = .error (.InvalidTag (("bare").toList))
    ∧ (∃ m, parse_tags (("k=;x=1").toList) = .ok m
        ∧ tagGet m (("k").toList) = some []) := by
  constructor
  · exact (c2_parse_tags_entries (("a=1;bare").toList)).1
      [("a=1").toList] (("bare").toList) [] (by decide) (by decide) (by decide)
  · exact (c2_parse_tags_entries (("k=;x=1").toList)).2.2
      (("k").toList) (by decide) (by decide) (by decide) (by decide)

/-- C3 counterexample: the claim allows a tag value to contain `=` (entry
split on the first `=` only). On the code, the entry `k=a=b` is split on
every `=` and only the first two pieces are kept, so the parsed value of
`k` is `a`, not the original `a=b`: the round-trip fails. -/
theorem c3_roundtrip_counterexample :
    parse_tags (joinTags [(("k").toList, ("a=b").toList)]) =
      .ok [(("k").toList, ("a").toList)]
    ∧ tagGet [(("k").toList, ("a").toList)] (("k").toList) ≠
      some (("a=b").toList) := by
  decide

theorem parse_tags_joinTags {kvs : List (Str × Str)} (hne : kvs ≠ [])
    (hgood : ∀ p ∈ kvs, ';' ∉ p.1 ∧ ';' ∉ p.2 ∧ '=' ∉ p.1 ∧ '=' ∉ p.2) :
    parse_tags (joinTags kvs) = .ok kvs := by
  induction kvs with
  | nil => simp at hne
  | cons p rest ih =>
    obtain ⟨k, v⟩ := p
    obtain ⟨hk1, hv1, hk2, hv2⟩ := hgood (k, v) (List.mem_cons_self _ _)
    have hentry : parseTagEntry (k ++ '=' :: v) = .ok (k, v) := by
      have hsplit : splitOnChar '=' (k ++ '=' :: v) = k :: splitOnChar '=' v :=
        splitOnChar_append_cons v hk2
      rw [splitOnChar_not_mem hv2] at hsplit
      simp [parseTagEntry, hsplit]
    have hnosemi : ';' ∉ k ++ '=' :: v := by
      intro hin
      rcases List.mem_append.mp hin with h | h
      · exact hk1 h
      · rcases List.mem_cons.mp h with h | h
        · exact absurd h (by decide)
        · exact hv1 h
    cases rest with
    | nil =>
      unfold parse_tags joinTags
      rw [splitOnChar_not_mem hnosemi]
      simp [mapExcept, hentry]
    | cons q qrest =>
      have hshape : joinTags ((k, v) :: q :: qrest) =
          (k ++ '=' :: v) ++ ';' :: joinTags (q :: qrest) := by
        simp [joinTags]
      have hrest := ih (by simp) (fun p hp => hgood p (List.mem_cons_of_mem _ hp))
      unfold parse_tags at hrest
      unfold parse_tags
      rw [hshape, splitOnChar_append_cons _ hnosemi]
      simp [mapExcept, hentry, hrest]

/-- C3 amended: the round-trip holds for every valid tag blob in which tag
values (like keys) contain no `=` and no `;` and keys are pairwise distinct:
parsing the joined blob recovers exactly the original pairs and looking up
each original key returns exactly its original value, including explicit
empty values. (The counterexample forces dropping only the claim's allowance
of `=` inside values.) -/
theorem c3_roundtrip_amended (kvs : List (Str × Str)) (hne : kvs ≠ [])
    (hgood : ∀ p ∈ kvs, ';' ∉ p.1 ∧ ';' ∉ p.2 ∧ '=' ∉ p.1 ∧ '=' ∉ p.2)
    (hnd : (kvs.map Prod.fst).Nodup) :
    parse_tags (joinTags kvs) = .ok kvs
    ∧ ∀ p ∈ kvs, tagGet kvs p.1 = some p.2 :=
  ⟨parse_tags_joinTags hne hgood, fun _ hp => tagGet_of_nodup hnd hp⟩

theorem c3_roundtrip_amended_witness :
    parse_tags (joinTags [(("a").toList, ("1").toList), (("b").toList, [])]) =
      .ok [(("a").toList, ("1").toList), (("b").toList, [])]
    ∧ tagGet [(("a").toList, ("1").toList), (("b").toList, [])] (("b").toList) =
      some [] := by
  have h := c3_roundtrip_amended
    [(("a").toList, ("1").toList), (("b").toList, [])]
    (by decide) (by decide) (by decide)
  exact ⟨h.1, h.2 ((("b").toList, [])) (by decide)⟩

/-- C7 counterexample: the claim says the entire remainder after the first
`!` becomes the host, so `a!b!c` should give host `b!c`. The code calls
`parts.next()` twice on the full `!`-split, so the host is only the piece
between the first and second `!`: `a!b!c` gives host `b`. -/
theorem c7_source_counterexample :
    parse_source (("a!b!c").toList) = ⟨some (("a").toList), ("b").toList⟩
    ∧ (("b").toList : Str) ≠ ("b!c").toList := by
  decide

/-- C7 amended: for a blob with no `!` the whole blob is the host and the
nick is absent; for a blob `pre!post` (with `!`-free `pre`) the nick is `pre`
and the host is the part of `post` up to (not including) the next `!` — the
whole remainder only when it contains no further `!`. -/
theorem c7_parse_source_amended (s : Str) :
    ('!' ∉ s → parse_source s = ⟨none, s⟩)
    ∧ (∀ pre post, s = pre ++ '!' :: post → '!' ∉ pre →
        parse_source s = ⟨some pre, post.takeWhile (fun c => c ≠ '!')⟩) := by
  constructor
  · intro h
    simp [parse_source, h]
  · intro pre post hs hpre
    subst hs
    have hmem : '!' ∈ pre ++ '!' :: post := by simp
    have hsplit : splitOnChar '!' (pre ++ '!' :: post) = pre :: splitOnChar '!' post :=
      splitOnChar_append_cons post hpre
    obtain ⟨p, ps, hp⟩ := splitOnChar_exists_cons '!' post
    have hhead : p = post.takeWhile (fun c => c ≠ '!') := by
      have hw := splitOnChar_head_takeWhile '!' post
      rw [hp] at hw
      simpa using hw
    simp [parse_source, hmem, hsplit, hp, hhead]

theorem c7_parse_source_amended_witness :
    parse_source (("host.example").toList) = ⟨none, ("host.example").toList⟩
    ∧ parse_source (("nick!nick@host.example").toList) =
      ⟨some (("nick").toList), ("nick@host.example").toList⟩ := by
  constructor
  · exact (c7_parse_source_amended (("host.example").toList)).1 (by decide)
  · exact ((c7_parse_source_amended (("nick!nick@host.example").toList)).2
      (("nick").toList) (("nick@host.example").toList) (by decide)
      (by decide)).trans (by decide)

/-- C10: badge parsing never rejects an unrecognized badge name — for every
entry `name/version` whose version parses as a u32 and whose name is not one
of the seven known names, `Badge::try_from` succeeds with `Other(version)`,
discarding the name; hence two entries with different unknown names but the
same version parse to equal `Badge` values. -/
theorem c10_unknown_badge_other (name ver : Str) (n : Nat)
    (hn1 : '/' ∉ name) (hn2 : '/' ∉ ver)
    (hv : parseU32 ver = some n)
    (hu : name ∉ knownBadgeNames) :
    Badge.tryFrom (name ++ '/' :: ver) = .ok (.Other n)
    ∧ ∀ name2 : Str, '/' ∉ name2 → name2 ∉ knownBadgeNames →
        Badge.tryFrom (name2 ++ '/' :: ver) = Badge.tryFrom (name ++ '/' :: ver) := by
  have key : ∀ nm : Str, '/' ∉ nm → nm ∉ knownBadgeNames →
      Badge.tryFrom (nm ++ '/' :: ver) = .ok (.Other n) := by
    intro nm h1 h2
    have hsplit : splitOnChar '/' (nm ++ '/' :: ver) = nm :: splitOnChar '/' ver :=
      splitOnChar_append_cons ver h1
    rw [splitOnChar_not_mem hn2] at hsplit
    simp only [knownBadgeNames, List.mem_cons, List.not_mem_nil, or_false, not_or] at h2
    obtain ⟨ha, hb, hc, hd, he, hf, hg⟩ := h2
    simp [Badge.tryFrom, hsplit, hv, ha, hb, hc, hd, he, hf, hg]
  refine ⟨key name hn1 hu, fun name2 h1 h2 => ?_⟩
  rw [key name2 h1 h2, key name hn1 hu]

theorem c10_witness :
    Badge.tryFrom (("founder").toList ++ '/' :: ("0").toList) = .ok (.Other 0)
    ∧ Badge.tryFrom (("vip").toList ++ '/' :: ("0").toList) =
      Badge.tryFrom (("founder").toList ++ '/' :: ("0").toList) := by
  have h := c10_unknown_badge_other (("founder").toList) (("0").toList) 0
    (by decide) (by decide) (by decide) (by decide)
  exact ⟨h.1, h.2 (("vip").toList) (by decide) (by decide)⟩

theorem buildUserContext_badges {tags : TagMap} {uc : UserContext}
    (h : buildUserContext tags = .ok uc) :
    try_get_badges tags = .ok uc.badges
    ∧ uc.is_broadcaster = uc.badges.any Badge.isBroadcasterBadge := by
  unfold buildUserContext at h
  cases hb : try_get_badges tags <;> rw [hb] at h
  · exact absurd h (by simp)
  · cases hd : try_get_required tags strDisplayName <;> rw [hd] at h
    · exact absurd h (by simp)
    · cases hu : try_get_required tags strUserId <;> rw [hu] at h
      · exact absurd h (by simp)
      · cases hut : try_get_user_type tags <;> rw [hut] at h
        · exact absurd h (by simp)
        · cases h1 : try_get_bool tags strTurbo <;> rw [h1] at h
          · exact absurd h (by simp)
          · cases h2 : try_get_bool tags strSubscriber <;> rw [h2] at h
            · exact absurd h (by simp)
            · cases h3 : try_get_bool tags strMod <;> rw [h3] at h
              · exact absurd h (by simp)
              · cases h4 : try_get_bool tags strFirstMsg <;> rw [h4] at h
                · exact absurd h (by simp)
                · cases h5 : try_get_bool tags strReturningChatter <;> rw [h5] at h
                  · exact absurd h (by simp)
                  · injection h with h
                    subst h
                    exact ⟨rfl, rfl⟩

theorem buildUserContext_mk {tags : TagMap} {bs : List Badge} {un uid : Str}
    {ut : UserType} {b1 b2 b3 b4 b5 : Bool}
    (hb : try_get_badges tags = .ok bs)
    (hdn : try_get_required tags strDisplayName = .ok un)
    (huid : try_get_required tags strUserId = .ok uid)
    (hut : try_get_user_type tags = .ok ut)
    (h1 : try_get_bool tags strTurbo = .ok b1)
    (h2 : try_get_bool tags strSubscriber = .ok b2)
    (h3 : try_get_bool tags strMod = .ok b3)
    (h4 : try_get_bool tags strFirstMsg = .ok b4)
    (h5 : try_get_bool tags strReturningChatter = .ok b5) :
    buildUserContext tags =
      .ok ⟨un, ut, b3, b5, b4, bs.any Badge.isBroadcasterBadge, b2, b1, uid, bs⟩ := by
  simp [buildUserContext, hb, hdn, huid, hut, h1, h2, h3, h4, h5]

/-- C9: `is_broadcaster` is derived, never read from a tag: for every
successfully built `UserContext`, `is_broadcaster` is true iff the parsed
badge list contains a `Broadcaster` badge; a badges tag value of
`broadcaster/1` yields exactly `[Broadcaster 1]` and `is_broadcaster` true,
and an empty badges value yields the empty list and `is_broadcaster` false. -/
theorem c9_is_broadcaster_derived :
    (∀ tags uc, buildUserContext tags = .ok uc →
      (uc.is_broadcaster = true ↔ ∃ v, Badge.Broadcaster v ∈ uc.badges))
    ∧ (∀ tags uc, buildUserContext tags = .ok uc →
        tagGet tags strBadges = some (("broadcaster/1").toList) →
        uc.badges = [.Broadcaster 1] ∧ uc.is_broadcaster = true)
    ∧ (∀ tags uc, buildUserContext tags = .ok uc →
        tagGet tags strBadges = some [] →
        uc.badges = [] ∧ uc.is_broadcaster = false) := by
  have hiff : ∀ tags uc, buildUserContext tags = .ok uc →
      (uc.is_broadcaster = true ↔ ∃ v, Badge.Broadcaster v ∈ uc.badges) := by
    intro tags uc h
    obtain ⟨-, hbr⟩ := buildUserContext_badges h
    rw [hbr, List.any_eq_true]
    constructor
    · rintro ⟨b, hb, hpred⟩
      cases b <;> simp [Badge.isBroadcasterBadge] at hpred
      case Broadcaster v => exact ⟨v, hb⟩
    · rintro ⟨v, hv⟩
      exact ⟨.Broadcaster v, hv, rfl⟩
  refine ⟨hiff, ?_, ?_⟩
  · intro tags uc h hbadges
    obtain ⟨hb, hbr⟩ := buildUserContext_badges h
    rw [try_get_badges, hbadges] at hb
    have hb' : mapExcept Badge.tryFrom
        ((splitOnChar ',' (("broadcaster/1").toList)).filter
          (fun e => !e.isEmpty)) = Except.ok uc.badges := hb
    rw [(by decide : mapExcept Badge.tryFrom
        ((splitOnChar ',' (("broadcaster/1").toList)).filter
          (fun e => !e.isEmpty)) = Except.ok [Badge.Broadcaster 1])] at hb'
    injection hb' with hb'
    refine ⟨hb'.symm, ?_⟩
    rw [hbr, ← hb']
    decide
  · intro tags uc h hbadges
    obtain ⟨hb, hbr⟩ := buildUserContext_badges h
    rw [try_get_badges, hbadges] at hb
    have hb' : mapExcept Badge.tryFrom
        ((splitOnChar ',' ([] : Str)).filter (fun e => !e.isEmpty)) =
        Except.ok uc.badges := hb
    rw [(by decide : mapExcept Badge.tryFrom
        ((splitOnChar ',' ([] : Str)).filter (fun e => !e.isEmpty)) =
        Except.ok ([] : List Badge))] at hb'
    injection hb' with hb'
    refine ⟨hb'.symm, ?_⟩
    rw [hbr, ← hb']
    decide

theorem c9_witness :
    (privmsgUC1.is_broadcaster = true ↔ ∃ v, Badge.Broadcaster v ∈ privmsgUC1.badges)
    ∧ privmsgUC1.badges = [.Broadcaster 1] ∧ privmsgUC1.is_broadcaster = true
    ∧ privmsgUC2.badges = [] ∧ privmsgUC2.is_broadcaster = false := by
  refine ⟨c9_is_broadcaster_derived.1 privmsgTags1 privmsgUC1 (by decide), ?_⟩
  have h2 := c9_is_broadcaster_derived.2.1 privmsgTags1 privmsgUC1 (by decide) (by decide)
  have h3 := c9_is_broadcaster_derived.2.2 privmsgTags2 privmsgUC2 (by decide) (by decide)
  exact ⟨h2.1, h2.2, h3.1, h3.2⟩

theorem not_ping_of_privmsg {cmd : Str} (h : strPRIVMSG.isPrefixOf cmd = true) :
    strPING.isPrefixOf cmd = false := by
  obtain ⟨t, rfl⟩ := List.isPrefixOf_iff_prefix.mp h
  rfl

/-- C8 counterexample: the claim says `Ping` is produced only when the
command token's leading word is exactly `PING`, and everything else becomes
`Unknown`. The code dispatches with `starts_with`, so the line `PINGX :x`
(leading word `PINGX`) produces `Ping("x")`, not `Unknown`. -/
theorem c8_dispatch_counterexample :
    parse_message (("PINGX :x").toList) = .ok (.Ping (("x").toList))
    ∧ headWord (("PINGX").toList) ≠ strPING
    ∧ parse_message (("PINGX :x").toList) ≠ .ok (.Unknown (("PINGX").toList)) := by
  decide

/-- C8 amended: dispatch is by prefix test on the command token, in source
order: a command starting with `PING` produces `Ping`, else one starting
with `PRIVMSG` produces `Privmsg`, else `NOTICE` / `PART` likewise, else a
command whose leading word parses as a u32 produces `Numbered`, and
`Unknown{command}` is produced exactly when none of these apply. -/
theorem c8_dispatch_amended (line : Str) (tb sb : Option Str) (cmd : Str)
    (ps : Option Str) (hm : matchLine line = some ⟨tb, sb, cmd, ps⟩) :
    (∀ x, parse_message line = .ok (.Ping x) → strPING.isPrefixOf cmd = true)
    ∧ (∀ tags uc src msg, parse_message line = .ok (.Privmsg tags uc src msg) →
        strPRIVMSG.isPrefixOf cmd = true)
    ∧ (∀ src msg, parse_message line = .ok (.Notice src msg) →
        strNOTICE.isPrefixOf cmd = true)
    ∧ (∀ src msg, parse_message line = .ok (.Part src msg) →
        strPART.isPrefixOf cmd = true)
    ∧ (∀ n src msg, parse_message line = .ok (.Numbered n src msg) →
        parseU32 (headWord cmd) = some n)
    ∧ (∀ c0, parse_message line = .ok (.Unknown c0) →
        c0 = cmd ∧ strPING.isPrefixOf cmd = false
        ∧ strPRIVMSG.isPrefixOf cmd = false
        ∧ strNOTICE.isPrefixOf cmd = false ∧ strPART.isPrefixOf cmd = false
        ∧ parseU32 (headWord cmd) = none)
    ∧ (∀ tags, tagsOfCaps tb = .ok tags →
        strPING.isPrefixOf cmd = false → strPRIVMSG.isPrefixOf cmd = false →
        strNOTICE.isPrefixOf cmd = false → strPART.isPrefixOf cmd = false →
        parseU32 (headWord cmd) = none →
        parse_message line = .ok (.Unknown cmd)) := by
  cases ht : tagsOfCaps tb with
  | error e => simp [parse_message, hm, ht]
  | ok tags =>
    by_cases h1 : strPING.isPrefixOf cmd = true
    · cases ps <;> simp [parse_message, hm, ht, h1]
    · by_cases h2 : strPRIVMSG.isPrefixOf cmd = true
      · cases hb : buildUserContext tags with
        | error e => simp [parse_message, hm, ht, h1, h2, hb]
        | ok uc =>
          cases ps with
          | none => simp [parse_message, hm, ht, h1, h2, hb]
          | some p => cases sb <;> simp [parse_message, hm, ht, h1, h2, hb]
      · by_cases h3 : strNOTICE.isPrefixOf cmd = true
        · cases ps with
          | none => simp [parse_message, hm, ht, h1, h2, h3]
          | some p => cases sb <;> simp [parse_message, hm, ht, h1, h2, h3]
        · by_cases h4 : strPART.isPrefixOf cmd = true
          · cases ps with
            | none => simp [parse_message, hm, ht, h1, h2, h3, h4]
            | some p => cases sb <;> simp [parse_message, hm, ht, h1, h2, h3, h4]
          · cases hn : parseU32 (headWord cmd) with
            | some n =>
              cases ps with
              | none => simp [parse_message, hm, ht, h1, h2, h3, h4, hn]
              | some p => cases sb <;> simp [parse_message, hm, ht, h1, h2, h3, h4, hn]
            | none => simp [parse_message, hm, ht, h1, h2, h3, h4, hn]

theorem c8_dispatch_amended_witness :
    parse_message (("FOO bar").toList) = .ok (.Unknown (("FOO bar").toList))
    ∧ strPING.isPrefixOf (("PINGX").toList) = true := by
  constructor
  · exact (c8_dispatch_amended (("FOO bar").toList) none none
      (("FOO bar").toList) none (by decide)).2.2.2.2.2.2 []
      (by decide) (by decide) (by decide) (by decide) (by decide) (by decide)
  · exact (c8_dispatch_amended (("PINGX :x").toList) none none
      (("PINGX").toList) (some (("x").toList)) (by decide)).1
      (("x").toList) (by decide)

/-- C4: PRIVMSG construction is all-or-nothing. For a matched line whose
command starts with `PRIVMSG`, with source and trailing present and a
well-formed tag blob: any failure of the `UserContext` construction is
returned as that failure's specific error and no `Privmsg` is produced; a
missing `display-name` (with badges well-formed, the only check before it)
gives exactly `MissingTag("display-name")`; and when every required tag is
present and well-formed a complete `Privmsg` carrying every `UserContext`
field is produced. -/
theorem c4_privmsg_all_or_nothing (line : Str) (tb : Option Str)
    (srcb cmd p : Str) (tags : TagMap)
    (hm : matchLine line = some ⟨tb, some srcb, cmd, some p⟩)
    (hcmd : strPRIVMSG.isPrefixOf cmd = true)
    (ht : tagsOfCaps tb = .ok tags) :
    (∀ e, buildUserContext tags = .error e → parse_message line = .err e)
    ∧ (∀ uc, buildUserContext tags = .ok uc →
        parse_message line = .ok (.Privmsg tags uc (parse_source srcb) p))
    ∧ (∀ bs, try_get_badges tags = .ok bs → tagGet tags strDisplayName = none →
        buildUserContext tags = .error (.MissingTag strDisplayName))
    ∧ (∀ bs un uid ut b1 b2 b3 b4 b5,
        try_get_badges tags = .ok bs →
        tagGet tags strDisplayName = some un →
        tagGet tags strUserId = some uid →
        try_get_user_type tags = .ok ut →
        try_get_bool tags strTurbo = .ok b1 →
        try_get_bool tags strSubscriber = .ok b2 →
        try_get_bool tags strMod = .ok b3 →
        try_get_bool tags strFirstMsg = .ok b4 →
        try_get_bool tags strReturningChatter = .ok b5 →
        buildUserContext tags =
          .ok ⟨un, ut, b3, b5, b4, bs.any Badge.isBroadcasterBadge, b2, b1,
            uid, bs⟩) := by
  have hping := not_ping_of_privmsg hcmd
  refine ⟨?_, ?_, ?_, ?_⟩
  · intro e he
    simp [parse_message, hm, ht, hping, hcmd, he]
  · intro uc huc
    simp [parse_message, hm, ht, hping, hcmd, huc]
  · intro bs hb hd
    have hdn : try_get_required tags strDisplayName =
        .error (.MissingTag strDisplayName) := by
      simp [try_get_required, hd]
    simp [buildUserContext, hb, hdn]
  · intro bs un uid ut b1 b2 b3 b4 b5 hb hdn huid hut hb1 hb2 hb3 hb4 hb5
    exact buildUserContext_mk hb (by simp [try_get_required, hdn])
      (by simp [try_get_required, huid]) hut hb1 hb2 hb3 hb4 hb5

theorem c4_witness :
    parse_message lineMissingDN = .err (.MissingTag strDisplayName)
    ∧ parse_message privmsgLine1 =
      .ok (.Privmsg privmsgTags1 privmsgUC1 (parse_source privmsgSrc)
        (("HeyGuys").toList)) := by
  constructor
  · exact (c4_privmsg_all_or_nothing lineMissingDN
      (some (("user-type=;user-id=1;badges=;mod=0;returning-chatter=0;first-msg=1;turbo=0;subscriber=0").toList))
      privmsgSrc (("PRIVMSG #xyz").toList) (("HeyGuys").toList) tagsMissingDN
      (by decide) (by decide) (by decide)).1
      (.MissingTag strDisplayName) (by decide)
  · exact (c4_privmsg_all_or_nothing privmsgLine1
      (some (("user-type=;user-id=1;badges=broadcaster/1;mod=0;returning-chatter=1;first-msg=0;turbo=0;subscriber=0;display-name=abc").toList))
      privmsgSrc (("PRIVMSG #xyz").toList) (("HeyGuys").toList) privmsgTags1
      (by decide) (by decide) (by decide)).2.1 privmsgUC1 (by decide)

/-- C6: `next_message` buffering is FIFO with one read per frame. When the
pending queue is non-empty, `get_next_message` pops and returns the front
element without touching the transport; when the queue is empty and a text
frame arrives, every line of the frame is parsed independently, all results
are enqueued in arrival order (the returned front is the first line's
result and the stored buffer is exactly the remaining lines' results), and
exactly one frame is consumed from the transport. -/
theorem c6_queue_fifo (c : TwitchClient) (t : Transport) :
    (∀ m rest, c.message_buffer = m :: rest →
      get_next_message c t =
        (.out (some (mapBufErr m)), ⟨rest, c.auto_pong, c.connected⟩, t))
    ∧ (∀ s irest m0 ms, c.message_buffer = [] → c.connected = true →
        t.incoming = .ok (.text s) :: irest →
        pushResults (rustLines s) = some (m0 :: ms) →
        get_next_message c t =
          (.out (some (mapBufErr m0)), ⟨ms, c.auto_pong, c.connected⟩,
            ⟨irest, t.sendScript⟩)) := by
  obtain ⟨buf, ap, conn⟩ := c
  obtain ⟨inc, ss⟩ := t
  constructor
  · intro m rest hb
    subst hb
    simp [get_next_message]
  · intro s irest m0 ms hb hc hi hp
    subst hb
    subst hc
    subst hi
    simp [get_next_message, hp]

set_option maxRecDepth 8000 in
theorem c6_witness :
    get_next_message ⟨[], true, true⟩ ⟨[.ok (.text twoPrivmsgFrame)], []⟩ =
      (.out (some (.ok privmsgMsg1)), ⟨[.ok privmsgMsg2], true, true⟩, ⟨[], []⟩)
    ∧ get_next_message ⟨[.ok privmsgMsg2], true, true⟩ ⟨[], []⟩ =
      (.out (some (.ok privmsgMsg2)), ⟨[], true, true⟩, ⟨[], []⟩) := by
  constructor
  · exact (c6_queue_fifo ⟨[], true, true⟩ ⟨[.ok (.text twoPrivmsgFrame)], []⟩).2
      twoPrivmsgFrame [] (.ok privmsgMsg1) [.ok privmsgMsg2]
      rfl rfl rfl (by decide)
  · exact (c6_queue_fifo ⟨[.ok privmsgMsg2], true, true⟩ ⟨[], []⟩).1
      (.ok privmsgMsg2) [] rfl

theorem pong_ok_sent {c : TwitchClient} {t : Transport} {m : Str} {u : Unit}
    {t2 : Transport} {sent : List Str}
    (h : pong c t m = (.ok u, t2, sent)) : sent = [pongLine m] := by
  obtain ⟨inc, ss⟩ := t
  by_cases hc : c.connected
  · cases ss with
    | nil =>
      simp [pong, wsSend, hc, Prod.mk.injEq] at h
      exact h.2.symm
    | cons o rest =>
      cases o with
      | none =>
        simp [pong, wsSend, hc, Prod.mk.injEq] at h
        exact h.2.symm
      | some e => simp [pong, wsSend, hc] at h
  · simp [pong, wsSend, hc] at h

/-- C5: auto-pong interception. When the message derived from the queue or
transport is a `Ping(text)` and auto-pong is enabled, `next` sends exactly
one pong carrying the identical payload, does not return the ping, and
loops to derive the following message; a failing pong send is returned
immediately instead of looping. When auto-pong is disabled the ping is
returned to the caller and nothing is sent; a non-ping message is likewise
returned directly with nothing sent. -/
theorem c5_auto_pong (c : TwitchClient) (t : Transport) (c' : TwitchClient)
    (t' : Transport) :
    (∀ p t2 sent,
      get_next_message c t = (.out (some (.ok (.Ping p))), c', t') →
      c'.auto_pong = true →
      pong c' t' p = (.ok (), t2, sent) →
      sent = [pongLine p]
      ∧ next c t = ((next c' t2).1, (next c' t2).2.1, (next c' t2).2.2.1,
          sent ++ (next c' t2).2.2.2))
    ∧ (∀ p t2 sent e,
        get_next_message c t = (.out (some (.ok (.Ping p))), c', t') →
        c'.auto_pong = true →
        pong c' t' p = (.error e, t2, sent) →
        next c t = (.out (some (.error e)), c', t2, sent))
    ∧ (∀ p,
        get_next_message c t = (.out (some (.ok (.Ping p))), c', t') →
        c'.auto_pong = false →
        next c t = (.out (some (.ok (.Ping p))), c', t', []))
    ∧ (∀ m,
        get_next_message c t = (.out (some m), c', t') →
        (∀ p, m ≠ .ok (.Ping p)) →
        next c t = (.out (some m), c', t', [])) := by
  refine ⟨?_, ?_, ?_, ?_⟩
  · intro p t2 sent hg hap hp
    refine ⟨pong_ok_sent hp, ?_⟩
    rw [next.eq_def]
    split <;> simp_all
    split <;> simp_all
  · intro p t2 sent e hg hap hp
    rw [next.eq_def]
    split <;> simp_all
    split <;> simp_all
  · intro p hg hap
    rw [next.eq_def]
    split <;> simp_all
  · intro m hg hnp
    rw [next.eq_def]
    split <;> simp_all
    exact absurd hg.1.symm (hnp _)

set_option maxRecDepth 8000 in
theorem c5_witness :
    next ⟨[], true, true⟩ ⟨[.ok (.text pingFrame)], []⟩ =
      (.out (some (.ok (.Unknown (("JOIN done").toList)))),
        ⟨[], true, true⟩, ⟨[], []⟩, [pongLine (("tmi.twitch.tv").toList)])
    ∧ next ⟨[], true, true⟩ ⟨[.ok (.text pingFrame)], [some 7]⟩ =
      (.out (some (.error (.ConnectionError (.SendMessageFailure 7)))),
        ⟨[.ok (.Unknown (("JOIN done").toList))], true, true⟩, ⟨[], []⟩,
        [pongLine (("tmi.twitch.tv").toList)])
    ∧ next ⟨[], false, true⟩ ⟨[.ok (.text pingFrame)], []⟩ =
      (.out (some (.ok (.Ping (("tmi.twitch.tv").toList)))),
        ⟨[.ok (.Unknown (("JOIN done").toList))], false, true⟩, ⟨[], []⟩,
        []) := by
  refine ⟨?_, ?_, ?_⟩
  · have h4 := (c5_auto_pong ⟨[.ok (.Unknown (("JOIN done").toList))], true, true⟩
      ⟨[], []⟩ ⟨[], true, true⟩ ⟨[], []⟩).2.2.2
      (.ok (.Unknown (("JOIN done").toList))) rfl
      (by intro p h; simp at h)
    have h1 := (c5_auto_pong ⟨[], true, true⟩ ⟨[.ok (.text pingFrame)], []⟩
      ⟨[.ok (.Unknown (("JOIN done").toList))], true, true⟩ ⟨[], []⟩).1
      (("tmi.twitch.tv").toList) ⟨[], []⟩ [pongLine (("tmi.twitch.tv").toList)]
      (by decide) rfl (by decide)
    have he := h1.2
    rw [h4] at he
    simpa using he
  · exact (c5_auto_pong ⟨[], true, true⟩ ⟨[.ok (.text pingFrame)], [some 7]⟩
      ⟨[.ok (.Unknown (("JOIN done").toList))], true, true⟩ ⟨[], [some 7]⟩).2.1
      (("tmi.twitch.tv").toList) ⟨[], []⟩ [pongLine (("tmi.twitch.tv").toList)]
      (.ConnectionError (.SendMessageFailure 7))
      (by decide) rfl (by decide)
  · exact (c5_auto_pong ⟨[], false, true⟩ ⟨[.ok (.text pingFrame)], []⟩
      ⟨[.ok (.Unknown (("JOIN done").toList))], false, true⟩ ⟨[], []⟩).2.2.1
      (("tmi.twitch.tv").toList) (by decide) rfl

end Twitch
